import Mathlib

/-!
Shallow embedding of `qiskit/providers/ibmq/ibmqfactory.py` (class `IBMQFactory`),
the account/session manager of the `qiskit-ibmq-provider` repository.

The session state of an `IBMQFactory` instance is `self._credentials`
(an `Optional[Credentials]`) together with `self._providers`, an `OrderedDict`
mapping a hub/group/project scope key to a provider handle.  We embed the
ordered dictionary as an association list in insertion order, and the external
collaborators (the `VersionClient`, the `AuthClient`, provider construction,
credential discovery and on-disk credential storage) as explicit inputs:

* the result of `VersionClient.version()` becomes a `VersionInfo` value,
* `AuthClient.current_service_urls()` / `user_hubs()` become fields of `AuthEnv`,
* `AccountProvider(...)` construction, which may raise, becomes an oracle
  `buildProvider : HubGroupProject → Option P` (`none` models the raised
  exception that the code catches, logs and skips),
* `discover_credentials()` / `read_credentials_from_qiskitrc()` results become
  `List Credentials` arguments (`list(d.values())` of the Python dicts).

Methods that mutate `self` are embedded as functions returning a pair of the
result (`Except` for the raising paths) and the post-state; a raising path
returns the unchanged pre-state, mirroring that a Python `raise` leaves the
object untouched.
-/

namespace IBMQ

/-- Scope key `(hub, group, project)` — the class `HubGroupProject` used as the
key of `self._providers` (it is the `unique_id()` of the per-provider
credentials built in `_initialize_providers`, i.e. exactly the hub entry). -/
structure HubGroupProject where
  hub : String
  group : String
  project : String
deriving DecidableEq

/-- The fields of `Credentials` relevant to `ibmqfactory.py`: the token and the
url.  (Proxies, certificate verification and websocket urls are passed through
to external collaborators and never inspected by the factory itself.) -/
structure Credentials where
  token : String
  url : String
deriving DecidableEq

/-- The module constant `QX_AUTH_URL`, the canonical authentication URL. -/
def QX_AUTH_URL : String := "https://auth.quantum-computing.ibm.com/api"

/-- The account-level error taxonomy raised by `IBMQFactory`:
`alreadyActive` is `IBMQAccountError('... already in use ...')`,
`credentialsNotFound` is `IBMQAccountCredentialsNotFound`,
`multipleCredentialsFound` is `IBMQAccountMultipleCredentialsFound`,
`invalidUrl` is `IBMQAccountCredentialsInvalidUrl`, and
`invalidToken` is `IBMQAccountCredentialsInvalidToken`. -/
inductive IBMQError where
  | alreadyActive
  | credentialsNotFound
  | multipleCredentialsFound
  | invalidUrl
  | invalidToken
deriving DecidableEq

/-- The two `IBMQProviderError` messages of `get_provider`:
`noMatchingProvider` is `IBMQProviderError('No provider matches the criteria.')`
and `ambiguousProvider` is
`IBMQProviderError('More than one provider matches the criteria.')`. -/
inductive ProviderError where
  | noMatchingProvider
  | ambiguousProvider
deriving DecidableEq

/-- Session state of an `IBMQFactory` instance: `self._credentials` and
`self._providers` (an `OrderedDict`, embedded as an association list in
insertion order).  `P` is the type of provider handles (`AccountProvider`
objects are opaque to the factory). -/
structure IBMQState (P : Type) where
  credentials : Option Credentials
  providers : List (HubGroupProject × P)
deriving DecidableEq

/-- The state of a freshly constructed `IBMQFactory` (the `__init__` method):
no credentials and an empty providers dictionary. -/
def initialState (P : Type) : IBMQState P := ⟨none, []⟩

/-- `OrderedDict` assignment `d[k] = v`: if the key is present the value is
updated in place (the position is kept), otherwise the pair is appended. -/
def odInsert {P : Type} (m : List (HubGroupProject × P)) (k : HubGroupProject)
    (v : P) : List (HubGroupProject × P) :=
  if m.any (fun kv => kv.1 = k) then
    m.map (fun kv => if kv.1 = k then (k, v) else kv)
  else
    m ++ [(k, v)]

/-- The result of `VersionClient.version()` as far as `ibmqfactory.py` reads
it: the boolean under key `new_api` and, when the key is present, the string
under key `api-auth` (`none` models the key being absent). -/
structure VersionInfo where
  new_api : Bool
  api_auth : Option String
deriving DecidableEq

/-- The guard of both `enable_account` and `load_account`:
`not version_info['new_api'] or 'api-auth' not in version_info`. -/
def badVersion (vi : VersionInfo) : Bool :=
  !vi.new_api || vi.api_auth.isNone

/-- The result of `AuthClient.current_service_urls()`. -/
structure ServiceUrls where
  http : String
  ws : String
deriving DecidableEq

/-- External collaborators consulted during `enable_account` / `load_account`:
the version endpoint's answer, the auth client's service urls and hub listing,
and the provider-construction oracle (`none` where `AccountProvider(...)`
raises, which the code catches and skips). -/
structure AuthEnv (P : Type) where
  version_info : VersionInfo
  service_urls : ServiceUrls
  user_hubs : List HubGroupProject
  buildProvider : HubGroupProject → Option P

/-- The loop of `_initialize_providers`: for each hub entry, try to build a
provider; on success store it under the entry's scope key, on failure (a
caught exception) log and skip the entry. -/
def popProviders {P : Type} (build : HubGroupProject → Option P)
    (m : List (HubGroupProject × P)) (hubs : List HubGroupProject) :
    List (HubGroupProject × P) :=
  hubs.foldl (fun acc h =>
    match build h with
    | some p => odInsert acc h p
    | none => acc) m

/-- `IBMQFactory._initialize_providers`: sets `self._credentials` to the given
credentials and populates `self._providers` from the auth client's hub list,
skipping entries whose provider construction fails. -/
def initialize_providers {P : Type} (env : AuthEnv P) (st : IBMQState P)
    (credentials : Credentials) : IBMQState P :=
  ⟨some credentials, popProviders env.buildProvider st.providers env.user_hubs⟩

/-- The filter list built by `IBMQFactory.providers`: a predicate is installed
for each of `hub`, `group`, `project` that is truthy in Python (`if hub:`),
i.e. for each argument that is present and a non-empty string. -/
def hubFilters (hub group project : Option String) :
    List (HubGroupProject → Bool) :=
  (match hub with
   | some s => if s.isEmpty then [] else [fun hgp => hgp.hub == s]
   | none => []) ++
  (match group with
   | some s => if s.isEmpty then [] else [fun hgp => hgp.group == s]
   | none => []) ++
  (match project with
   | some s => if s.isEmpty then [] else [fun hgp => hgp.project == s]
   | none => [])

/-- `IBMQFactory.providers(hub, group, project)`: the providers whose key
passes every installed filter, in the dictionary's insertion order. -/
def providersM {P : Type} (m : List (HubGroupProject × P))
    (hub group project : Option String) : List P :=
  (m.filter (fun kv =>
    (hubFilters hub group project).all (fun f => f kv.1))).map Prod.snd

/-- `IBMQFactory.get_provider(hub, group, project)`: raises if no provider or
more than one provider matches, otherwise returns `providers[0]`. -/
def get_provider {P : Type} (m : List (HubGroupProject × P))
    (hub group project : Option String) : Except ProviderError P :=
  match providersM m hub group project with
  | [] => Except.error ProviderError.noMatchingProvider
  | [x] => Except.ok x
  | _ :: _ :: _ => Except.error ProviderError.ambiguousProvider

/-- `IBMQFactory.enable_account(token, url, ...)`: raises `IBMQAccountError`
if credentials are already in use; raises `IBMQAccountCredentialsInvalidUrl`
if the version endpoint does not report a new-API auth endpoint; otherwise
initializes the providers and returns `providers()[0]`, or `None` (with a
warning) when no hub/group/project is available. -/
def enable_account {P : Type} (env : AuthEnv P) (st : IBMQState P)
    (token url : String) : Except IBMQError (Option P) × IBMQState P :=
  if st.credentials.isSome then
    (Except.error IBMQError.alreadyActive, st)
  else if badVersion env.version_info then
    (Except.error IBMQError.invalidUrl, st)
  else
    let st2 := initialize_providers env st ⟨token, url⟩
    (Except.ok (providersM st2.providers none none none).head?, st2)

/-- `IBMQFactory.disable_account()`: raises if no credentials are in use,
otherwise resets `self._credentials = None` and `self._providers` to a fresh
empty `OrderedDict`, in the same call. -/
def disable_account {P : Type} (st : IBMQState P) :
    Except IBMQError Unit × IBMQState P :=
  if st.credentials.isNone then
    (Except.error IBMQError.credentialsNotFound, st)
  else
    (Except.ok (), ⟨none, []⟩)

/-- `IBMQFactory.load_account()`: takes `list(discover_credentials().values())`
as the `discovered` argument.  Raises `IBMQAccountCredentialsNotFound` when it
is empty and `IBMQAccountMultipleCredentialsFound` when it has more than one
element; then version-checks the single credential like `enable_account`; if
credentials are already in use, warns and calls `disable_account` first; then
initializes the providers and returns `providers()[0]` or `None`. -/
def load_account {P : Type} (env : AuthEnv P) (discovered : List Credentials)
    (st : IBMQState P) : Except IBMQError (Option P) × IBMQState P :=
  match discovered with
  | [] => (Except.error IBMQError.credentialsNotFound, st)
  | [credentials] =>
      if badVersion env.version_info then
        (Except.error IBMQError.invalidUrl, st)
      else
        let st1 := if st.credentials.isSome then (⟨none, []⟩ : IBMQState P) else st
        let st2 := initialize_providers env st1 credentials
        (Except.ok (providersM st2.providers none none none).head?, st2)
  | _ :: _ :: _ => (Except.error IBMQError.multipleCredentialsFound, st)

/-- `IBMQFactory.save_account(token, url, ...)` (static): raises
`IBMQAccountCredentialsInvalidUrl` when `url != QX_AUTH_URL`, then raises
`IBMQAccountCredentialsInvalidToken` when `not token or not isinstance(token,
str)` — with the token embedded as a `String`, exactly when it is empty;
otherwise hands the credentials to the external `store_credentials`. -/
def save_account (token url : String) : Except IBMQError Unit :=
  if url ≠ QX_AUTH_URL then
    Except.error IBMQError.invalidUrl
  else if token.isEmpty then
    Except.error IBMQError.invalidToken
  else
    Except.ok ()

/-- `IBMQFactory.delete_account()` (static): takes the values of
`read_credentials_from_qiskitrc()` as `stored`.  Raises when the store is
empty (`IBMQAccountCredentialsNotFound`), when `len(stored_credentials) != 1`
(`IBMQAccountMultipleCredentialsFound`), and when the single credential's url
is not `QX_AUTH_URL` (`IBMQAccountCredentialsInvalidUrl`); otherwise hands the
credential to the external `remove_credentials`. -/
def delete_account (stored : List Credentials) : Except IBMQError Unit :=
  match stored with
  | [] => Except.error IBMQError.credentialsNotFound
  | [c] =>
      if c.url ≠ QX_AUTH_URL then Except.error IBMQError.invalidUrl
      else Except.ok ()
  | _ :: _ :: _ => Except.error IBMQError.multipleCredentialsFound

/-- `IBMQFactory.stored_account()` (static): takes the values of
`read_credentials_from_qiskitrc()` as `stored`.  Returns the empty dict when
the store is empty; raises `IBMQAccountMultipleCredentialsFound` when more
than one credential is stored and `IBMQAccountCredentialsInvalidUrl` when the
single credential's url is not `QX_AUTH_URL`; otherwise returns the dict with
the stored token and url. -/
def stored_account (stored : List Credentials) :
    Except IBMQError (List (String × String)) :=
  match stored with
  | [] => Except.ok []
  | [c] =>
      if c.url ≠ QX_AUTH_URL then Except.error IBMQError.invalidUrl
      else Except.ok [("token", c.token), ("url", c.url)]
  | _ :: _ :: _ => Except.error IBMQError.multipleCredentialsFound

/-- The session-state invariant of the spec: the providers map is non-empty
only if a credential is currently active. -/
def providersInv {P : Type} (st : IBMQState P) : Prop :=
  st.providers ≠ [] → st.credentials.isSome = true

/-- Spec-side match of one filter against one field, reading "supplied
(non-null) filters" literally: a supplied (`some`) filter must equal the
field, whether or not the filter string is empty. -/
def specFilterMatch (arg : Option String) (field : String) : Bool :=
  match arg with
  | none => true
  | some s => field == s

/-- Modelled from the spec (claim C2's reading): `providers` returns exactly
the providers whose scope key matches all supplied (non-null) filters, in
insertion order. -/
def providersSpecNonNull {P : Type} (m : List (HubGroupProject × P))
    (hub group project : Option String) : List P :=
  (m.filter (fun kv =>
    specFilterMatch hub kv.1.hub && specFilterMatch group kv.1.group &&
      specFilterMatch project kv.1.project)).map Prod.snd

/-- Spec-side match of one filter against one field under the amended reading:
a filter that is absent or the empty string is ignored, a non-empty supplied
filter must equal the field. -/
def specFilterMatchTruthy (arg : Option String) (field : String) : Bool :=
  match arg with
  | none => true
  | some s => if s.isEmpty then true else field == s

/-- Modelled from the amended spec: `providers` returns exactly the providers
whose scope key matches all supplied non-empty filters, in insertion order. -/
def providersSpecTruthy {P : Type} (m : List (HubGroupProject × P))
    (hub group project : Option String) : List P :=
  (m.filter (fun kv =>
    specFilterMatchTruthy hub kv.1.hub && specFilterMatchTruthy group kv.1.group &&
      specFilterMatchTruthy project kv.1.project)).map Prod.snd

/-! ### Helper lemmas -/

/-- `initialize_providers` always installs the credential it is given. -/
theorem initialize_providers_credentials {P : Type} (env : AuthEnv P)
    (st : IBMQState P) (c : Credentials) :
    (initialize_providers env st c).credentials = some c := rfl

/-- With no filters installed, `providers()` returns every value of the
dictionary in insertion order. -/
theorem providersM_no_filters {P : Type} (m : List (HubGroupProject × P)) :
    providersM m none none none = m.map Prod.snd := by
  unfold providersM hubFilters
  simp [List.all_nil, List.filter_true]

/-- `disable_account` on a state with an active credential succeeds and
resets both components of the state. -/
theorem disable_account_clears {P : Type} (st : IBMQState P)
    (h : st.credentials.isSome = true) :
    disable_account st = (Except.ok (), (⟨none, []⟩ : IBMQState P)) := by
  unfold disable_account
  rw [if_neg]
  simp [Option.isNone_iff_eq_none]
  intro hn
  rw [hn] at h
  simp at h

/-! ### C1: providers-nonempty-implies-active invariant -/

/-- C1: in every session state the providers map is non-empty only if a
credential is active; `disable_account`, when a credential is active, clears
the credential and the providers map in the same operation; and every
state-mutating operation (`enable_account`, `disable_account`,
`load_account`) preserves the invariant. -/
theorem session_invariant {P : Type} :
    providersInv (initialState P) ∧
    (∀ st : IBMQState P, st.credentials.isSome = true →
      disable_account st = (Except.ok (), (⟨none, []⟩ : IBMQState P))) ∧
    (∀ st : IBMQState P, providersInv st → providersInv (disable_account st).2) ∧
    (∀ (env : AuthEnv P) (st : IBMQState P) (token url : String),
      providersInv st → providersInv (enable_account env st token url).2) ∧
    (∀ (env : AuthEnv P) (discovered : List Credentials) (st : IBMQState P),
      providersInv st → providersInv (load_account env discovered st).2) := by
  refine ⟨by simp [providersInv, initialState], fun st h => disable_account_clears st h, ?_, ?_, ?_⟩
  · intro st hinv
    unfold disable_account
    by_cases h : st.credentials.isNone
    · simpa [h] using hinv
    · intro hne
      simp [h] at hne
  · intro env st token url hinv
    unfold enable_account
    by_cases h1 : st.credentials.isSome
    · simpa [h1] using hinv
    · by_cases h2 : badVersion env.version_info
      · simpa [h1, h2] using hinv
      · simp only [h1, h2, Bool.false_eq_true, if_false, if_neg]
        intro _
        rfl
  · intro env discovered st hinv
    unfold load_account
    match discovered with
    | [] => simpa using hinv
    | [c] =>
        by_cases h2 : badVersion env.version_info
        · simpa [h2] using hinv
        · simp only [h2, Bool.false_eq_true, if_false]
          intro _
          rfl
    | _ :: _ :: _ => simpa using hinv

/-- Witness for C1 at a concrete state: disabling an active account with one
provider clears both fields, and the invariant is preserved by a disable on
the fresh state. -/
theorem session_invariant_witness :
    disable_account (⟨some ⟨"tok", QX_AUTH_URL⟩, [(⟨"h", "g", "p"⟩, (0 : Nat))]⟩ :
        IBMQState Nat) = (Except.ok (), (⟨none, []⟩ : IBMQState Nat)) :=
  (session_invariant (P := Nat)).2.1
    ⟨some ⟨"tok", QX_AUTH_URL⟩, [(⟨"h", "g", "p"⟩, (0 : Nat))]⟩ (by decide)

/-! ### C4: enable_account with an active credential -/

/-- C4: whenever a credential is already active in the session, every call to
`enable_account` fails with `AlreadyActive` (`IBMQAccountError`) and leaves
the session state unchanged, for every token, url and server behaviour. -/
theorem enable_account_already_active {P : Type} (env : AuthEnv P)
    (st : IBMQState P) (token url : String)
    (h : st.credentials.isSome = true) :
    enable_account env st token url = (Except.error IBMQError.alreadyActive, st) := by
  unfold enable_account
  rw [if_pos h]

/-- Witness for C4: a state holding a credential (as after a successful
`enable_account`) rejects a second `enable_account` unchanged. -/
theorem enable_account_already_active_witness :
    enable_account
      (⟨⟨true, some "auth"⟩, ⟨"http", "ws"⟩, [], fun _ => some 0⟩ : AuthEnv Nat)
      (⟨some ⟨"tok", QX_AUTH_URL⟩, []⟩ : IBMQState Nat) "tok2" QX_AUTH_URL =
      (Except.error IBMQError.alreadyActive, ⟨some ⟨"tok", QX_AUTH_URL⟩, []⟩) :=
  enable_account_already_active _ _ "tok2" QX_AUTH_URL (by decide)

/-! ### C5: load_account discovery failures -/

/-- C5: `load_account` fails with `NotFound` when credential discovery
resolves zero stored credentials, and with `MultipleFound` when it resolves
more than one; in both cases the session state is unchanged. -/
theorem load_account_discovery_errors {P : Type} (env : AuthEnv P)
    (st : IBMQState P) :
    load_account env [] st = (Except.error IBMQError.credentialsNotFound, st) ∧
    (∀ discovered : List Credentials, 2 ≤ discovered.length →
      load_account env discovered st =
        (Except.error IBMQError.multipleCredentialsFound, st)) := by
  constructor
  · rfl
  · intro discovered hlen
    match discovered with
    | [] => simp at hlen
    | [c] => simp at hlen
    | _ :: _ :: _ => rfl

/-- Witness for C5: discovering two stored credentials makes `load_account`
fail with `MultipleFound` and leaves the fresh state unchanged. -/
theorem load_account_discovery_errors_witness :
    load_account (⟨⟨true, some "auth"⟩, ⟨"http", "ws"⟩, [], fun _ => some 0⟩ : AuthEnv Nat)
      [⟨"t1", QX_AUTH_URL⟩, ⟨"t2", QX_AUTH_URL⟩] (initialState Nat) =
      (Except.error IBMQError.multipleCredentialsFound, initialState Nat) :=
  (load_account_discovery_errors _ (initialState Nat)).2
    [⟨"t1", QX_AUTH_URL⟩, ⟨"t2", QX_AUTH_URL⟩] (by decide)

/-! ### C6: save_account validation -/

/-- C6: `save_account` fails with `InvalidUrl` for every url different from
the canonical auth URL, regardless of the token; and for the canonical url it
fails with `InvalidToken` exactly when the token is not a non-empty string
(with the token embedded as a `String`: exactly when it is empty). -/
theorem save_account_validation (token url : String) :
    (url ≠ QX_AUTH_URL →
      save_account token url = Except.error IBMQError.invalidUrl) ∧
    (url = QX_AUTH_URL →
      (save_account token url = Except.error IBMQError.invalidToken ↔ token = "")) := by
  constructor
  · intro h
    unfold save_account
    rw [if_pos h]
  · intro h
    subst h
    unfold save_account
    rw [if_neg (by simp)]
    by_cases ht : token.isEmpty
    · rw [if_pos ht]
      simp [(String.isEmpty_iff token).mp ht]
    · constructor
      · intro hc
        rw [if_neg (by simp [ht])] at hc
        exact absurd hc (by simp)
      · intro hc
        exact absurd ((String.isEmpty_iff token).mpr hc) ht

/-- Witness for C6: a wrong url is rejected as `InvalidUrl` even with a valid
token, and at the canonical url the empty token is rejected as
`InvalidToken`. -/
theorem save_account_validation_witness :
    save_account "goodtoken" "https://example.com" = Except.error IBMQError.invalidUrl ∧
    (save_account "" QX_AUTH_URL = Except.error IBMQError.invalidToken ↔ ("" : String) = "") :=
  ⟨(save_account_validation "goodtoken" "https://example.com").1 (by decide),
   (save_account_validation "" QX_AUTH_URL).2 rfl⟩

/-! ### C2 and C10: the providers filter -/

/-- The filter list of `providers` accepts a key exactly when the key matches
every supplied non-empty filter (empty-string filters are ignored like
absent ones). -/
theorem hubFilters_all_eq (hub group project : Option String)
    (k : HubGroupProject) :
    (hubFilters hub group project).all (fun f => f k) =
      (specFilterMatchTruthy hub k.hub && specFilterMatchTruthy group k.group &&
        specFilterMatchTruthy project k.project) := by
  rcases hub with _ | h <;> rcases group with _ | g <;> rcases project with _ | p <;>
    simp only [hubFilters, specFilterMatchTruthy, List.all_append] <;>
    (try split_ifs) <;>
    simp_all [Bool.and_assoc]

/-- C2 counterexample: with a supplied (non-null) empty-string hub filter the
code ignores the filter and returns the provider whose hub is `"h"`, while
the claim's exact-match reading returns nothing. -/
theorem providers_non_null_cex :
    providersM [((⟨"h", "g", "p"⟩ : HubGroupProject), (0 : Nat))] (some "") none none ≠
      providersSpecNonNull [((⟨"h", "g", "p"⟩ : HubGroupProject), (0 : Nat))]
        (some "") none none := by
  decide

/-- C2 (amended): for every session state and every combination of hub, group
and project arguments, `providers` returns exactly the providers whose scope
key matches all supplied non-empty filters (a supplied empty-string filter is
ignored, like an absent one), in the insertion order of the providers map;
with no filters it returns all entries in insertion order. -/
theorem providers_matches_spec {P : Type} (m : List (HubGroupProject × P))
    (hub group project : Option String) :
    providersM m hub group project = providersSpecTruthy m hub group project ∧
    providersM m none none none = m.map Prod.snd := by
  constructor
  · unfold providersM providersSpecTruthy
    congr 1
    apply List.filter_congr
    intro kv _
    exact hubFilters_all_eq hub group project kv.1
  · exact providersM_no_filters m

/-- C10: a supplied empty string for hub, group or project is treated exactly
as an omitted filter, so `providers` with an empty-string hub returns every
provider, including those whose key has a non-empty hub. -/
theorem providers_empty_string_filter {P : Type} (m : List (HubGroupProject × P))
    (hub group project : Option String) :
    providersM m (some "") group project = providersM m none group project ∧
    providersM m hub (some "") project = providersM m hub none project ∧
    providersM m hub group (some "") = providersM m hub group none ∧
    providersM m (some "") none none = m.map Prod.snd := by
  have h0 : "".isEmpty = true := rfl
  refine ⟨?_, ?_, ?_, ?_⟩ <;>
    simp [providersM, hubFilters, h0, List.filter_true]

/-! ### C3: get_provider -/

/-- C3: `get_provider` fails with `NoMatchingProvider` when zero providers
match the filters, returns the provider when exactly one matches, and fails
with `AmbiguousProvider` when two or more match. -/
theorem get_provider_cases {P : Type} (m : List (HubGroupProject × P))
    (hub group project : Option String) :
    (providersM m hub group project = [] →
      get_provider m hub group project =
        Except.error ProviderError.noMatchingProvider) ∧
    (∀ x, providersM m hub group project = [x] →
      get_provider m hub group project = Except.ok x) ∧
    (2 ≤ (providersM m hub group project).length →
      get_provider m hub group project =
        Except.error ProviderError.ambiguousProvider) := by
  refine ⟨?_, ?_, ?_⟩
  · intro h
    unfold get_provider
    rw [h]
  · intro x h
    unfold get_provider
    rw [h]
  · intro h
    unfold get_provider
    match hl : providersM m hub group project with
    | [] => rw [hl] at h; simp at h
    | [a] => rw [hl] at h; simp at h
    | a :: b :: t => rfl

/-- Witness for C3 on a two-provider session: an unmatched hub fails with
`NoMatchingProvider`, a unique hub returns its provider, and a group filter
matching both providers fails with `AmbiguousProvider`. -/
theorem get_provider_cases_witness :
    get_provider [((⟨"h1", "g", "p"⟩ : HubGroupProject), (0 : Nat)),
        (⟨"h2", "g", "p"⟩, 1)] (some "h3") none none =
      Except.error ProviderError.noMatchingProvider ∧
    get_provider [((⟨"h1", "g", "p"⟩ : HubGroupProject), (0 : Nat)),
        (⟨"h2", "g", "p"⟩, 1)] (some "h1") none none = Except.ok 0 ∧
    get_provider [((⟨"h1", "g", "p"⟩ : HubGroupProject), (0 : Nat)),
        (⟨"h2", "g", "p"⟩, 1)] none (some "g") none =
      Except.error ProviderError.ambiguousProvider :=
  ⟨(get_provider_cases _ (some "h3") none none).1 (by decide),
   (get_provider_cases _ (some "h1") none none).2.1 0 (by decide),
   (get_provider_cases _ none (some "g") none).2.2 (by decide)⟩

/-! ### C8: delete_account and stored_account validation -/

/-- C8 counterexample: `stored_account` with zero stored credentials does not
fail — it returns the empty dictionary. -/
theorem stored_account_empty_cex :
    stored_account [] = Except.ok [] := rfl

/-- C8 (amended): `delete_account` fails with `NotFound` on an empty store
and with `MultipleFound` on more than one stored credential, while
`stored_account` returns an empty dictionary on an empty store and fails with
`MultipleFound` only on more than one; both fail with `InvalidUrl` when the
single stored credential's url differs from the canonical auth URL. -/
theorem delete_stored_account_validation :
    delete_account [] = Except.error IBMQError.credentialsNotFound ∧
    (∀ stored : List Credentials, 2 ≤ stored.length →
      delete_account stored = Except.error IBMQError.multipleCredentialsFound) ∧
    (∀ c : Credentials, c.url ≠ QX_AUTH_URL →
      delete_account [c] = Except.error IBMQError.invalidUrl) ∧
    stored_account [] = Except.ok [] ∧
    (∀ stored : List Credentials, 2 ≤ stored.length →
      stored_account stored = Except.error IBMQError.multipleCredentialsFound) ∧
    (∀ c : Credentials, c.url ≠ QX_AUTH_URL →
      stored_account [c] = Except.error IBMQError.invalidUrl) := by
  refine ⟨rfl, ?_, ?_, rfl, ?_, ?_⟩
  · intro stored hlen
    match stored with
    | [] => simp at hlen
    | [c] => simp at hlen
    | _ :: _ :: _ => rfl
  · intro c hc
    simp [delete_account, hc]
  · intro stored hlen
    match stored with
    | [] => simp at hlen
    | [c] => simp at hlen
    | _ :: _ :: _ => rfl
  · intro c hc
    simp [stored_account, hc]

/-- Witness for C8 (amended): a single stored credential with a non-canonical
url is rejected as `InvalidUrl` by `delete_account`, and two stored
credentials are rejected as `MultipleFound` by `stored_account`. -/
theorem delete_stored_account_validation_witness :
    delete_account [⟨"t", "https://example.com"⟩] =
      Except.error IBMQError.invalidUrl ∧
    stored_account [⟨"t1", QX_AUTH_URL⟩, ⟨"t2", QX_AUTH_URL⟩] =
      Except.error IBMQError.multipleCredentialsFound :=
  ⟨delete_stored_account_validation.2.2.1 ⟨"t", "https://example.com"⟩ (by decide),
   delete_stored_account_validation.2.2.2.2.1
     [⟨"t1", QX_AUTH_URL⟩, ⟨"t2", QX_AUTH_URL⟩] (by decide)⟩

/-! ### C7: partial-failure tolerance of provider population -/

/-- Inserting under a key not yet in the dictionary appends the pair. -/
theorem odInsert_fresh {P : Type} (m : List (HubGroupProject × P))
    (k : HubGroupProject) (v : P) (h : ¬ k ∈ m.map Prod.fst) :
    odInsert m k v = m ++ [(k, v)] := by
  have hany : m.any (fun kv => kv.1 = k) = false := by
    rw [List.any_eq_false]
    intro kv hmem
    simp only [decide_eq_true_eq]
    intro he
    exact h (List.mem_map.mpr ⟨kv, hmem, he⟩)
  simp [odInsert, hany]

/-- One step of the `_initialize_providers` loop. -/
theorem popProviders_cons {P : Type} (build : HubGroupProject → Option P)
    (m : List (HubGroupProject × P)) (h : HubGroupProject)
    (rest : List HubGroupProject) :
    popProviders build m (h :: rest) =
      popProviders build
        (match build h with
         | some p => odInsert m h p
         | none => m) rest := rfl

/-- The `_initialize_providers` loop over hub entries with pairwise distinct
scope keys, none already present, appends one pair per entry whose provider
construction succeeds and skips the entries where it fails. -/
theorem popProviders_fresh {P : Type} (build : HubGroupProject → Option P)
    (hubs : List HubGroupProject) :
    ∀ m : List (HubGroupProject × P), hubs.Nodup →
      (∀ h ∈ hubs, ¬ h ∈ m.map Prod.fst) →
      popProviders build m hubs =
        m ++ hubs.filterMap (fun h => (build h).map (fun pr => (h, pr))) := by
  induction hubs with
  | nil =>
      intro m _ _
      simp [popProviders]
  | cons h rest ih =>
      intro m hnodup hfresh
      have hn := List.nodup_cons.mp hnodup
      cases hb : build h with
      | none =>
          have hfr : ∀ x ∈ rest, ¬ x ∈ m.map Prod.fst :=
            fun x hx => hfresh x (List.mem_cons_of_mem h hx)
          rw [popProviders_cons]
          simp only [hb]
          rw [ih m hn.2 hfr]
          congr 1
          simp [List.filterMap_cons, hb]
      | some p =>
          have hkm : ¬ h ∈ m.map Prod.fst := hfresh h (List.mem_cons_self h rest)
          have hfr : ∀ x ∈ rest, ¬ x ∈ (m ++ [(h, p)]).map Prod.fst := by
            intro x hx
            simp only [List.map_append, List.mem_append, List.map_cons,
              List.map_nil, List.mem_singleton]
            rintro (hxm | hxh)
            · exact hfresh x (List.mem_cons_of_mem h hx) hxm
            · exact hn.1 (hxh ▸ hx)
          rw [popProviders_cons]
          simp only [hb]
          rw [odInsert_fresh m h p hkm, ih (m ++ [(h, p)]) hn.2 hfr,
            List.append_assoc]
          congr 1
          simp [List.filterMap_cons, hb]

/-- Counting the successful constructions. -/
theorem length_filterMap_build {P : Type} (build : HubGroupProject → Option P)
    (l : List HubGroupProject) :
    (l.filterMap (fun h => (build h).map (fun pr => (h, pr)))).length =
      (l.filter (fun h => (build h).isSome)).length := by
  induction l with
  | nil => rfl
  | cons h t ih =>
      cases hb : build h <;>
        simp [List.filterMap_cons, List.filter_cons, hb, ih]

/-- C7: during provider population over hub entries with pairwise distinct
scope keys not already present, an entry whose provider construction fails is
skipped without aborting the operation or affecting the other entries: the
providers map gains exactly the pairs of the successful entries, in order, so
`providers()` afterwards has one entry per successful construction. -/
theorem initialize_providers_skips_failures {P : Type} (env : AuthEnv P)
    (st : IBMQState P) (c : Credentials) (hnodup : env.user_hubs.Nodup)
    (hfresh : ∀ h ∈ env.user_hubs, ¬ h ∈ st.providers.map Prod.fst) :
    (initialize_providers env st c).providers =
      st.providers ++
        env.user_hubs.filterMap (fun h => (env.buildProvider h).map (fun pr => (h, pr))) ∧
    (providersM (initialize_providers env st c).providers none none none).length =
      st.providers.length +
        (env.user_hubs.filter (fun h => (env.buildProvider h).isSome)).length := by
  have heq := popProviders_fresh env.buildProvider env.user_hubs st.providers hnodup hfresh
  constructor
  · exact heq
  · rw [providersM_no_filters, List.length_map]
    show (popProviders env.buildProvider st.providers env.user_hubs).length = _
    rw [heq, List.length_append, length_filterMap_build]

/-- Witness for C7: the spec's scenario — enabling an account whose server
reports three hub entries where construction fails for exactly one leaves
`providers()` with exactly two entries. -/
theorem initialize_providers_skips_failures_witness :
    (providersM (initialize_providers
        (⟨⟨true, some "auth"⟩, ⟨"http", "ws"⟩,
          [⟨"h1", "g", "p"⟩, ⟨"h2", "g", "p"⟩, ⟨"h3", "g", "p"⟩],
          fun h => if h.hub == "h2" then none else some 0⟩ : AuthEnv Nat)
        (initialState Nat) ⟨"tok", QX_AUTH_URL⟩).providers none none none).length = 2 :=
  ((initialize_providers_skips_failures
      (⟨⟨true, some "auth"⟩, ⟨"http", "ws"⟩,
        [⟨"h1", "g", "p"⟩, ⟨"h2", "g", "p"⟩, ⟨"h3", "g", "p"⟩],
        fun h => if h.hub == "h2" then none else some 0⟩ : AuthEnv Nat)
      (initialState Nat) ⟨"tok", QX_AUTH_URL⟩ (by decide) (by decide)).2).trans
    (by decide)

/-! ### C9: enable_account on a fresh session -/

/-- C9: when no credential is active, `enable_account` fails with
`InvalidUrl` (leaving the state unchanged) if the remote version endpoint
does not report a new-API authentication endpoint; otherwise it installs the
credential, populates the providers map from the server's hub list, and
returns the first provider in insertion order, or `none` (with a warning)
when the resulting provider list is empty. -/
theorem enable_account_fresh {P : Type} (env : AuthEnv P) (st : IBMQState P)
    (token url : String) (hc : st.credentials.isSome = false) :
    (badVersion env.version_info = true →
      enable_account env st token url = (Except.error IBMQError.invalidUrl, st)) ∧
    (badVersion env.version_info = false →
      enable_account env st token url =
        (Except.ok
          ((popProviders env.buildProvider st.providers env.user_hubs).map Prod.snd).head?,
         ⟨some ⟨token, url⟩, popProviders env.buildProvider st.providers env.user_hubs⟩)) := by
  constructor
  · intro hb
    unfold enable_account
    rw [if_neg (by simp [hc]), if_pos hb]
  · intro hb
    unfold enable_account
    rw [if_neg (by simp [hc]), if_neg (by simp [hb])]
    simp only [initialize_providers, providersM_no_filters]

/-- Witness for C9: enabling on a fresh session with a good version answer
and one hub entry returns that hub's provider and installs the credential. -/
theorem enable_account_fresh_witness :
    enable_account
      (⟨⟨true, some "auth"⟩, ⟨"http", "ws"⟩, [⟨"h1", "g", "p"⟩],
        fun _ => some 7⟩ : AuthEnv Nat)
      (initialState Nat) "tok" QX_AUTH_URL =
      (Except.ok (some 7),
       ⟨some ⟨"tok", QX_AUTH_URL⟩, [(⟨"h1", "g", "p"⟩, 7)]⟩) :=
  ((enable_account_fresh
      (⟨⟨true, some "auth"⟩, ⟨"http", "ws"⟩, [⟨"h1", "g", "p"⟩],
        fun _ => some 7⟩ : AuthEnv Nat)
      (initialState Nat) "tok" QX_AUTH_URL rfl).2 rfl).trans rfl

end IBMQ
